import Mathlib

/-!
Verification of the blog backend request handlers (Express + PostgreSQL).

The definitions below are a shallow embedding of the route handlers in
`backend/src/routes/posts.ts`, `comments.ts`, `admin.ts` and the middleware
`backend/src/middleware/auth.ts`.  Strings are Lean `String`s (lists of
characters); timestamps are `Nat`; SQL tables are Lean lists of row
structures; the dynamic `SET` clause of the partial update is a row
transformer; query failure for the admin stats endpoint is an `Except`
value per query, mirroring `Promise.all` over five `query(...)` calls.
JavaScript `toLowerCase` and the character classes of the regexes
`/[^a-z0-9]+/` and `/\s+/` are modelled over the ASCII range, which is the
range the spec and the test data exercise.
-/

/-- Character class of the regex `[^a-z0-9]` complement: lowercase ASCII
letters and digits. -/
def isAlnum (c : Char) : Bool :=
  ('a' ≤ c && c ≤ 'z') || ('0' ≤ c && c ≤ '9')

/-- JavaScript `toLowerCase`, modelled on the ASCII range: uppercase ASCII
letters are shifted to lowercase, all other characters are unchanged. -/
def jsToLower (c : Char) : Char :=
  if 'A' ≤ c && c ≤ 'Z' then Char.ofNat (c.toNat + 32) else c

/-- One left-to-right pass of `String.replace(/[^a-z0-9]+/g, '-')`:
`inRun` records whether the scanner is inside a non-alphanumeric run whose
replacement hyphen has already been emitted, so that a maximal run
contributes exactly one hyphen. -/
def collapseAux (inRun : Bool) : List Char → List Char
  | [] => []
  | c :: cs =>
    if isAlnum c then c :: collapseAux false cs
    else if inRun then collapseAux true cs
    else '-' :: collapseAux true cs

/-- The replacement `String.replace(/[^a-z0-9]+/g, '-')` from the slug
generation in `posts.ts` (and `categories.ts`). -/
def collapseNonAlnum (l : List Char) : List Char :=
  collapseAux false l

/-- The `^-` alternative of `String.replace(/^-|-$/g, '')`: drop a single
leading hyphen. -/
def trimLeadHyphen : List Char → List Char
  | [] => []
  | c :: rest => if c == '-' then rest else c :: rest

/-- The last character of a list, if any. -/
def lastChar : List Char → Option Char
  | [] => none
  | [c] => some c
  | _ :: c :: cs => lastChar (c :: cs)

/-- All characters of a list but the last. -/
def dropLastL : List Char → List Char
  | [] => []
  | [_] => []
  | c :: d :: cs => c :: dropLastL (d :: cs)

/-- The `-$` alternative of `String.replace(/^-|-$/g, '')`: drop a single
trailing hyphen. -/
def trimTrailHyphen (l : List Char) : List Char :=
  match lastChar l with
  | some c => if c == '-' then dropLastL l else l
  | none => l

/-- Slug generation from `posts.ts`:
`title.toLowerCase().replace(/[^a-z0-9]+/g, '-').replace(/^-|-$/g, '')`. -/
def slugify (s : String) : String :=
  ⟨trimTrailHyphen (trimLeadHyphen (collapseNonAlnum (s.data.map jsToLower)))⟩

/-- Maximal alphanumeric runs of a character list, in order.  Used by the
specification-side slug characterization. -/
def alnumRuns : List Char → List (List Char)
  | [] => []
  | c :: cs =>
    if isAlnum c then
      (c :: cs.takeWhile isAlnum) :: alnumRuns (cs.dropWhile isAlnum)
    else
      alnumRuns (cs.dropWhile (fun d => !isAlnum d))
termination_by l => l.length
decreasing_by
  · have h : ∀ l : List Char, (l.dropWhile isAlnum).length ≤ l.length := by
      intro l
      induction l with
      | nil => simp [List.dropWhile]
      | cons a as ih =>
        simp only [List.dropWhile]
        split
        · simp only [List.length_cons]
          omega
        · simp
    have := h cs
    simp only [List.length_cons]
    omega
  · have h : ∀ l : List Char, (l.dropWhile (fun d => !isAlnum d)).length ≤ l.length := by
      intro l
      induction l with
      | nil => simp [List.dropWhile]
      | cons a as ih =>
        simp only [List.dropWhile]
        split
        · simp only [List.length_cons]
          omega
        · simp
    have := h cs
    simp only [List.length_cons]
    omega

/-- Slug as the specification words it: the title lowercased, each maximal
run of non-alphanumeric characters replaced by a single hyphen, with no
leading or trailing hyphen — equivalently, the maximal alphanumeric runs
of the lowercased title joined by single hyphens. -/
def specSlug (s : String) : String :=
  ⟨List.intercalate ['-'] (alnumRuns (s.data.map jsToLower))⟩

/-- Character class of the regex `\s`, modelled on the ASCII range. -/
def isWs (c : Char) : Bool :=
  c == ' ' || c == '\t' || c == '\n' || c == '\r' || c == '\x0b' || c == '\x0c'

/-- Left-to-right scan implementing JavaScript `String.split(/\s+/)`.
`skipping` records whether the scanner is inside a whitespace run that has
already closed a field; `acc` is the current field, reversed. -/
def wsSplitAux (skipping : Bool) (acc : List Char) : List Char → List (List Char)
  | [] => if skipping then [[]] else [acc.reverse]
  | c :: cs =>
    if skipping then
      if isWs c then wsSplitAux true [] cs
      else wsSplitAux false [c] cs
    else
      if isWs c then acc.reverse :: wsSplitAux true [] cs
      else wsSplitAux false (c :: acc) cs

/-- JavaScript `content.split(/\s+/)`: fields separated by maximal
whitespace runs, with an empty leading field when the string starts with
whitespace and an empty trailing field when it ends with whitespace. -/
def wsSplit (l : List Char) : List (List Char) :=
  wsSplitAux false [] l

/-- Ceiling division on naturals, the image of `Math.ceil(a / b)` for
non-negative integer operands. -/
def jsCeilDiv (a b : Nat) : Nat :=
  (a + b - 1) / b

/-- Reading time from `posts.ts`:
`Math.max(1, Math.ceil(content.split(/\s+/).length / 200))`. -/
def readingTimeOf (content : String) : Nat :=
  max 1 (jsCeilDiv (wsSplit content.data).length 200)

/-- Number of whitespace-separated tokens (maximal non-whitespace runs);
`inTok` records whether the scanner is inside a token already counted. -/
def tokenCountAux (inTok : Bool) : List Char → Nat
  | [] => 0
  | c :: cs =>
    if isWs c then tokenCountAux false cs
    else (if inTok then 0 else 1) + tokenCountAux true cs

/-- Number of whitespace-separated tokens of a character list, as the
specification words `word_count`. -/
def tokenCount (l : List Char) : Nat :=
  tokenCountAux false l

/-- One when the list starts with whitespace, zero otherwise. -/
def wsLead (l : List Char) : Nat :=
  match l with
  | [] => 0
  | c :: _ => if isWs c then 1 else 0

/-- One when the list ends with whitespace, zero otherwise. -/
def wsTrail (l : List Char) : Nat :=
  match lastChar l with
  | some c => if isWs c then 1 else 0
  | none => 0

/-- A row of the `posts` table (see `backend/src/models/types.ts`). -/
structure PostRow where
  id : Nat
  title : String
  slug : String
  content : String
  excerpt : Option String
  status : String
  featured : Bool
  reading_time_minutes : Nat
  view_count : Nat
  author_id : Option Nat
  category_id : Nat
  published_at : Option Nat
  created_at : Nat
  updated_at : Nat
deriving DecidableEq

/-- A row of the `comments` table (see `backend/src/models/types.ts`). -/
structure CommentRow where
  id : Nat
  post_id : Nat
  author_name : String
  author_email : Option String
  content : String
  status : String
  created_at : Nat
deriving DecidableEq

/-- The projection returned by the comment-creation insert:
`RETURNING id, author_name, content, status, created_at`. -/
structure CommentResponse where
  id : Nat
  author_name : String
  content : String
  status : String
  created_at : Nat
deriving DecidableEq

/-- The database state the handlers read and write.  The `next...Id`
counters model the serial id sequences. -/
structure Db where
  posts : List PostRow
  comments : List CommentRow
  nextPostId : Nat
  nextCommentId : Nat
deriving DecidableEq

/-- Outcome of a handler: `res.status(s).json(body)` on success or
`res.status(s).json({ error: msg })` on failure. -/
inductive Handled (α : Type) where
  | ok (status : Nat) (body : α)
  | err (status : Nat) (error : String)
deriving DecidableEq

/-- Request body of `POST /api/posts`; `none` models an absent field. -/
structure CreatePostBody where
  title : Option String
  content : Option String
  excerpt : Option String
  category_id : Option Nat
  status : Option String
  featured : Option Bool
  tags : Option (List String)
deriving DecidableEq

/-- Request body of `PUT /api/posts/:id`; `none` models an absent field
(the handler tests each field with `!== undefined`). -/
structure UpdatePostBody where
  title : Option String
  content : Option String
  excerpt : Option String
  category_id : Option Nat
  status : Option String
  featured : Option Bool
deriving DecidableEq

/-- Request body of `POST /api/posts/:postId/comments`.  The `status`
field models a client attempting to choose an initial status; the handler
destructures only `author_name`, `author_email` and `content`, so the
field is never read. -/
structure CreateCommentBody where
  author_name : Option String
  author_email : Option String
  content : Option String
  status : Option String
deriving DecidableEq

/-- The optional filter parameters the specification ascribes to
`GET /api/posts`. -/
structure ListQueryParams where
  search : Option String
  category : Option String
  tag : Option String
deriving DecidableEq

/-- JavaScript truthiness of an optional string field: absent
(`undefined`) and the empty string are falsy. -/
def isTruthyS (v : Option String) : Bool :=
  match v with
  | some s => !(s == "")
  | none => false

/-- JavaScript truthiness of an optional numeric field: absent and zero
are falsy. -/
def isTruthyN (v : Option Nat) : Bool :=
  match v with
  | some n => !(n == 0)
  | none => false

/-- JavaScript `x || null` on an optional string: absent and empty become
SQL NULL. -/
def jsOrNull (v : Option String) : Option String :=
  match v with
  | some s => if s == "" then none else some s
  | none => none

/-- Ordering used by `ORDER BY published_at DESC` (PostgreSQL sorts NULLs
first in descending order): `a` may come before `b`. -/
def pubDescLe (a b : Option Nat) : Bool :=
  match a, b with
  | none, _ => true
  | some _, none => false
  | some x, some y => y ≤ x

/-- Insertion into a list sorted by `pubDescLe` on `published_at`. -/
def insertByPub (p : PostRow) : List PostRow → List PostRow
  | [] => [p]
  | q :: qs =>
    if pubDescLe p.published_at q.published_at then p :: q :: qs
    else q :: insertByPub p qs

/-- Insertion sort realizing `ORDER BY published_at DESC`. -/
def sortByPubDesc : List PostRow → List PostRow
  | [] => []
  | p :: ps => insertByPub p (sortByPubDesc ps)

/-- Handler of `GET /api/posts` (posts.ts, `postsRouter.get('/')`).  The
source binds the request as `_req` and never reads it: the SQL statement
is fixed, `WHERE p.status = 'published' ... ORDER BY p.published_at DESC`,
so the query parameters play no role.  The join-derived display columns
(category name, author name, tag array) project data of other tables and
do not affect which post rows are returned; the embedding returns the post
rows themselves. -/
def listPosts (_params : ListQueryParams) (db : Db) : Handled (List PostRow) :=
  .ok 200 (sortByPubDesc (db.posts.filter (fun p => p.status == "published")))

/-- Handler of `POST /api/posts` (posts.ts, `postsRouter.post('/')`).
Validates `title`, `content`, `category_id`; derives the slug from the
title; computes the reading time; sets `published_at` only when the
supplied status is exactly `published`; inserts and returns the new row.
The tag upsert loop that follows the insert touches only the `tags` and
`post_tags` tables and does not alter the returned post row, so it is not
modelled. -/
def createPost (now : Nat) (body : CreatePostBody) (db : Db) :
    Handled PostRow × Db :=
  if !(isTruthyS body.title && isTruthyS body.content && isTruthyN body.category_id) then
    (.err 400 "Title, content, and category_id are required", db)
  else
    let title := body.title.getD ""
    let content := body.content.getD ""
    let post : PostRow := {
      id := db.nextPostId
      title := title
      slug := slugify title
      content := content
      excerpt := jsOrNull body.excerpt
      status := match body.status with
        | some s => if s == "" then "draft" else s
        | none => "draft"
      featured := body.featured.getD false
      reading_time_minutes := readingTimeOf content
      view_count := 0
      author_id := none
      category_id := body.category_id.getD 0
      published_at := if body.status == some "published" then some now else none
      created_at := now
      updated_at := now }
    (.ok 201 post,
      { db with posts := db.posts ++ [post], nextPostId := db.nextPostId + 1 })

/-- True when the update body supplies at least one of the six updatable
columns (`updates.length > 0` in the source). -/
def hasAnyField (body : UpdatePostBody) : Bool :=
  body.title.isSome || body.content.isSome || body.excerpt.isSome ||
  body.category_id.isSome || body.status.isSome || body.featured.isSome

/-- The row transformation of the dynamically built
`UPDATE posts SET ...` statement of `PUT /api/posts/:id`: each supplied
column is overwritten; a supplied `content` also recomputes
`reading_time_minutes`; a supplied status equal to `published` sets
`published_at = COALESCE(published_at, now)`; `updated_at` is always
stamped. -/
def applyUpdate (now : Nat) (body : UpdatePostBody) (row : PostRow) : PostRow :=
  { row with
    title := body.title.getD row.title
    content := body.content.getD row.content
    reading_time_minutes := match body.content with
      | some c => readingTimeOf c
      | none => row.reading_time_minutes
    excerpt := match body.excerpt with
      | some e => some e
      | none => row.excerpt
    category_id := body.category_id.getD row.category_id
    status := body.status.getD row.status
    published_at := match body.status with
      | some s =>
        if s == "published" then
          match row.published_at with
          | some t => some t
          | none => some now
        else row.published_at
      | none => row.published_at
    featured := body.featured.getD row.featured
    updated_at := now }

/-- Handler of `PUT /api/posts/:id` (posts.ts, `postsRouter.put('/:id')`):
400 when no updatable field is supplied, 404 when no row has the id,
otherwise the row is rewritten by `applyUpdate` and returned. -/
def updatePost (now : Nat) (id : Nat) (body : UpdatePostBody) (db : Db) :
    Handled PostRow × Db :=
  if !hasAnyField body then (.err 400 "No fields to update", db)
  else
    match db.posts.find? (fun p => p.id == id) with
    | none => (.err 404 "Post not found", db)
    | some row =>
      (.ok 200 (applyUpdate now body row),
        { db with
            posts := db.posts.map fun p =>
              if p.id == id then applyUpdate now body p else p })

/-- Default of the `status` column of the `comments` table.  Modelled from
the spec: the database DDL is not part of the source tree; the spec states
that a Comment's status always starts at `pending`, and the insert in
`comments.ts` names no `status` column, so the column default applies. -/
def commentsStatusDefault : String := "pending"

/-- Handler of `POST /api/posts/:postId/comments` (comments.ts):
validates `author_name` and `content`, checks
`SELECT id FROM posts WHERE id = $1` (any status), then inserts with the
column default for `status` and returns the projected row. -/
def createComment (now : Nat) (postId : Nat) (body : CreateCommentBody)
    (db : Db) : Handled CommentResponse × Db :=
  if !(isTruthyS body.author_name && isTruthyS body.content) then
    (.err 400 "author_name and content are required", db)
  else if !(db.posts.any (fun p => p.id == postId)) then
    (.err 404 "Post not found", db)
  else
    let row : CommentRow := {
      id := db.nextCommentId
      post_id := postId
      author_name := body.author_name.getD ""
      author_email := jsOrNull body.author_email
      content := body.content.getD ""
      status := commentsStatusDefault
      created_at := now }
    (.ok 201 { id := row.id, author_name := row.author_name,
               content := row.content, status := row.status,
               created_at := row.created_at },
      { db with comments := db.comments ++ [row],
                nextCommentId := db.nextCommentId + 1 })

/-- Result row of the posts-by-status aggregate of `GET /api/admin/stats`. -/
structure PostCountsRow where
  total : Nat
  published : Nat
  drafts : Nat
deriving DecidableEq

/-- Result row of the comments-by-status aggregate of
`GET /api/admin/stats`. -/
structure CommentCountsRow where
  total : Nat
  pending : Nat
  approved : Nat
  flagged : Nat
deriving DecidableEq

/-- Row of the five-most-recent-posts query of `GET /api/admin/stats`. -/
structure RecentPostRow where
  title : String
  status : String
  published_at : Option Nat
  created_at : Nat
deriving DecidableEq

/-- Row of the five-most-recent-comments query of `GET /api/admin/stats`. -/
structure RecentCommentRow where
  author_name : String
  content : String
  status : String
  created_at : Nat
  post_title : Option String
deriving DecidableEq

/-- The assembled response body of `GET /api/admin/stats`. -/
structure AdminStatsBody where
  posts : PostCountsRow
  comments : CommentCountsRow
  views : Nat
  recentPosts : List RecentPostRow
  recentComments : List RecentCommentRow
deriving DecidableEq

/-- `Promise.all` over the five `query(...)` calls of the stats handler:
succeeds with all five results, or rejects with the first failure. -/
def promiseAll5 {ε α β γ δ ζ : Type} (p1 : Except ε α) (p2 : Except ε β)
    (p3 : Except ε γ) (p4 : Except ε δ) (p5 : Except ε ζ) :
    Except ε (α × β × γ × δ × ζ) := do
  let a ← p1
  let b ← p2
  let c ← p3
  let d ← p4
  let e ← p5
  return (a, b, c, d, e)

/-- True when the query promise resolved. -/
def queryOk {ε α : Type} (p : Except ε α) : Bool :=
  match p with
  | .ok _ => true
  | .error _ => false

/-- Handler of `GET /api/admin/stats` (admin.ts, `adminRouter.get('/stats')`):
awaits the five read-only aggregate queries through `Promise.all`; on
success assembles the response object; any rejection lands in the `catch`
block, which answers a generic 500. -/
def getAdminStats {ε : Type} (q1 : Except ε PostCountsRow)
    (q2 : Except ε CommentCountsRow) (q3 : Except ε Nat)
    (q4 : Except ε (List RecentPostRow))
    (q5 : Except ε (List RecentCommentRow)) : Handled AdminStatsBody :=
  match promiseAll5 q1 q2 q3 q4 q5 with
  | .ok (a, b, c, d, e) =>
    .ok 200 { posts := a, comments := b, views := c,
              recentPosts := d, recentComments := e }
  | .error _ => .err 500 "Failed to fetch admin stats"

/-- The identity attached to the request by the auth middleware
(see `TokenPayload` in types.ts). -/
structure TokenIdentity where
  sub : String
  email : String
  groups : List String
deriving DecidableEq

/-- Outcome of the `requireAuth` middleware: pass the request on with an
identity attached, or answer 401/403. -/
inductive AuthOutcome where
  | allowed (user : TokenIdentity)
  | rejected (status : Nat) (error : String)
deriving DecidableEq

/-- The two modes of the Auth Gate (auth.ts): `disabled` when
`COGNITO_USER_POOL_ID`/`COGNITO_CLIENT_ID` are absent and no verifier is
created, `enforcing` otherwise; `verify` abstracts the external
`CognitoJwtVerifier.verify` call, returning the decoded claims of a valid
token and `none` for an invalid or expired one. -/
inductive AuthMode where
  | disabled
  | enforcing (verify : String → Option TokenIdentity)

/-- The `requireAuth` middleware (auth.ts): dev-mode bypass attaching a
mock admin identity, or bearer-token validation — missing header gives
401, malformed `Bearer <token>` shape gives 401, failed verification
gives 403. -/
def requireAuth (mode : AuthMode) (authHeader : Option String) : AuthOutcome :=
  match mode with
  | .disabled =>
    .allowed { sub := "dev-admin-000", email := "admin@localhost",
               groups := ["admin"] }
  | .enforcing verify =>
    match authHeader with
    | none => .rejected 401 "Authorization header is required"
    | some h =>
      match h.splitOn " " with
      | [scheme, token] =>
        if scheme == "Bearer" then
          match verify token with
          | some user => .allowed user
          | none => .rejected 403 "Invalid or expired token"
        else .rejected 401 "Authorization header must be: Bearer <token>"
      | _ => .rejected 401 "Authorization header must be: Bearer <token>"

/-- The route pipeline of `POST /api/posts` as composed in the source:
`postsRouter.post('/', async (req, res) => ...)` attaches no middleware
(the file carries a TODO comment to add it), so every request — whatever
the auth mode and Authorization header — goes straight to the create
handler. -/
def postPostsRoute (_mode : AuthMode) (_authHeader : Option String)
    (now : Nat) (body : CreatePostBody) (db : Db) : Handled PostRow × Db :=
  createPost now body db

/-- True when `needle` is an initial segment of `haystack`. -/
def leadMatch : List Char → List Char → Bool
  | [], _ => true
  | _ :: _, [] => false
  | a :: as, b :: bs => a == b && leadMatch as bs

/-- True when `needle` occurs contiguously inside `haystack`. -/
def subMatch (needle : List Char) : List Char → Bool
  | [] => needle.isEmpty
  | c :: cs => leadMatch needle (c :: cs) || subMatch needle cs

/-- Case-insensitive substring test, the reading of the specification
filter `?search=` (ILIKE-style matching). -/
def ciContains (haystack needle : String) : Bool :=
  subMatch (needle.data.map jsToLower) (haystack.data.map jsToLower)

/-- The HTTP status code of a handler outcome. -/
def handledStatus {α : Type} : Handled α → Nat
  | .ok s _ => s
  | .err s _ => s

/-- The reading time carried by a successful create or update response. -/
def handledReadingTime : Handled PostRow → Option Nat
  | .ok _ p => some p.reading_time_minutes
  | .err _ _ => none

/-- A published sample post for concrete evaluations. -/
def samplePost : PostRow :=
  { id := 1, title := "Hello World", slug := "hello-world",
    content := "hi there", excerpt := some "greetings",
    status := "published", featured := false, reading_time_minutes := 1,
    view_count := 3, author_id := some 1, category_id := 1,
    published_at := some 100, created_at := 90, updated_at := 95 }

/-- A draft sample post for concrete evaluations. -/
def sampleDraft : PostRow :=
  { samplePost with
    id := 2
    slug := "hello-draft"
    status := "draft"
    published_at := none }

/-- An empty database. -/
def dbEmpty : Db :=
  { posts := [], comments := [], nextPostId := 1, nextCommentId := 1 }

/-- A database holding exactly one published post. -/
def dbOnePublished : Db :=
  { posts := [samplePost], comments := [], nextPostId := 2,
    nextCommentId := 1 }

/-- A database holding exactly one draft post. -/
def dbOneDraft : Db :=
  { posts := [sampleDraft], comments := [], nextPostId := 3,
    nextCommentId := 1 }

/-- A well-formed post-creation body. -/
def createBodyBasic : CreatePostBody :=
  { title := some "My First Post", content := some "short words here",
    excerpt := none, category_id := some 1, status := none,
    featured := none, tags := none }

/-- Two hundred one-letter words preceded by one leading space: the JS
split on whitespace yields 201 fields although there are 200 tokens. -/
def longContent : String :=
  " " ++ String.intercalate " " (List.replicate 200 "a")

/-- A well-formed post-creation body whose content is `longContent`. -/
def createBodyLong : CreatePostBody :=
  { createBodyBasic with content := some longContent }

/-- A comment body that also tries to smuggle in an initial status. -/
def commentBodyFull : CreateCommentBody :=
  { author_name := some "Max", author_email := some "max@example.org",
    content := some "Nice post", status := some "approved" }

/-- A comment body missing the required author name. -/
def commentBodyNoName : CreateCommentBody :=
  { author_name := none, author_email := none,
    content := some "Nice post", status := none }

/-- An update body that only transitions the status to published. -/
def updBodyPublish : UpdatePostBody :=
  { title := none, content := none, excerpt := none, category_id := none,
    status := some "published", featured := none }

/-- An update body supplying only a new content. -/
def updBodyContentBasic : UpdatePostBody :=
  { title := none, content := some "short words here", excerpt := none,
    category_id := none, status := none, featured := none }

/-- An update body changing title and content. -/
def updBodyTitleContent : UpdatePostBody :=
  { title := some "New Title", content := some "brand new words",
    excerpt := none, category_id := none, status := none,
    featured := none }

/-- Dropping a satisfied run never lengthens a list. -/
theorem dropWhileLenLe (p : Char → Bool) :
    ∀ l : List Char, (l.dropWhile p).length ≤ l.length := by
  intro l
  induction l with
  | nil => simp [List.dropWhile]
  | cons a as ih =>
    simp only [List.dropWhile]
    split
    · simp only [List.length_cons]
      omega
    · simp

/-- Every character kept by `takeWhile` satisfies the test. -/
theorem takeWhileAll (p : Char → Bool) :
    ∀ l : List Char, ∀ c ∈ l.takeWhile p, p c = true := by
  intro l
  induction l with
  | nil => simp [List.takeWhile]
  | cons a as ih =>
    intro c hc
    simp only [List.takeWhile] at hc
    by_cases h : p a
    · simp [h] at hc
      rcases hc with rfl | hc
      · exact h
      · exact ih c hc
    · simp [h] at hc

/-- After `dropWhile`, the list is empty or starts with a failing
character. -/
theorem dropWhileHead (p : Char → Bool) :
    ∀ l : List Char, l.dropWhile p = [] ∨
      ∃ c cs, l.dropWhile p = c :: cs ∧ p c = false := by
  intro l
  induction l with
  | nil => left; simp [List.dropWhile]
  | cons a as ih =>
    by_cases h : p a
    · have hd : List.dropWhile p (a :: as) = List.dropWhile p as := by
        simp [List.dropWhile, h]
      rw [hd]
      exact ih
    · right
      exact ⟨a, as, by simp [List.dropWhile, h], by simp [h]⟩

/-- The last character of a nonempty list is a member. -/
theorem lastCharMem : ∀ (l : List Char) (c : Char), lastChar l = some c → c ∈ l := by
  intro l
  induction l with
  | nil => intro c h; simp [lastChar] at h
  | cons a as ih =>
    intro c h
    cases as with
    | nil =>
      simp [lastChar] at h
      simp [h]
    | cons b bs =>
      have h2 : lastChar (b :: bs) = some c := h
      simp [ih c h2]

/-- Peeling the head off a nonempty list leaves `lastChar` unchanged. -/
theorem lastCharCons (a : Char) (l : List Char) (h : l ≠ []) :
    lastChar (a :: l) = lastChar l := by
  cases l with
  | nil => exact absurd rfl h
  | cons b bs => rfl

/-- Peeling the head off a nonempty list distributes over `dropLastL`. -/
theorem dropLastLCons (a : Char) (l : List Char) (h : l ≠ []) :
    dropLastL (a :: l) = a :: dropLastL l := by
  cases l with
  | nil => exact absurd rfl h
  | cons b bs => rfl

/-- The last character of an appended list is that of its nonempty right
part. -/
theorem lastCharAppend (l1 l2 : List Char) (h : l2 ≠ []) :
    lastChar (l1 ++ l2) = lastChar l2 := by
  induction l1 with
  | nil => rfl
  | cons a as ih =>
    have hne : as ++ l2 ≠ [] := by
      intro he
      rcases List.append_eq_nil.mp he with ⟨_, h2⟩
      exact h h2
    calc lastChar (a :: as ++ l2) = lastChar (as ++ l2) := lastCharCons a _ hne
      _ = lastChar l2 := ih

/-- Dropping the last character of an appended list keeps the left part
whole when the right part is nonempty. -/
theorem dropLastLAppend (l1 l2 : List Char) (h : l2 ≠ []) :
    dropLastL (l1 ++ l2) = l1 ++ dropLastL l2 := by
  induction l1 with
  | nil => rfl
  | cons a as ih =>
    have hne : as ++ l2 ≠ [] := by
      intro he
      rcases List.append_eq_nil.mp he with ⟨_, h2⟩
      exact h h2
    calc dropLastL (a :: as ++ l2) = a :: dropLastL (as ++ l2) :=
          dropLastLCons a _ hne
      _ = a :: (as ++ dropLastL l2) := by rw [ih]

/-- Inside a run whose hyphen is already emitted, the scanner behaves as a
fresh scan of the list with the rest of the run removed. -/
theorem collapseAuxTrue (l : List Char) :
    collapseAux true l = collapseAux false (l.dropWhile (fun d => !isAlnum d)) := by
  induction l with
  | nil => rfl
  | cons c cs ih =>
    by_cases h : isAlnum c
    · simp [collapseAux, List.dropWhile, h]
    · simp [collapseAux, List.dropWhile, h, ih]

/-- Trimming the leading hyphen of a collapsed list is the same as
collapsing with the leading non-alphanumeric run removed. -/
theorem trimLeadCollapse (l : List Char) :
    trimLeadHyphen (collapseAux false l) =
      collapseAux false (l.dropWhile (fun d => !isAlnum d)) := by
  cases l with
  | nil => rfl
  | cons c cs =>
    by_cases h : isAlnum c
    · have hc : (c == '-') = false := by
        cases hcc : c == '-'
        · rfl
        · rw [eq_of_beq hcc] at h
          simp [isAlnum] at h
      simp [collapseAux, trimLeadHyphen, List.dropWhile, h, hc]
    · simp [collapseAux, trimLeadHyphen, List.dropWhile, h, collapseAuxTrue]

/-- The runs of a list do not change when its leading non-alphanumeric
run is removed. -/
theorem alnumRunsDropLead (l : List Char) :
    alnumRuns (l.dropWhile (fun d => !isAlnum d)) = alnumRuns l := by
  cases l with
  | nil => rfl
  | cons c cs =>
    by_cases h : isAlnum c
    · simp [List.dropWhile, h]
    · rw [List.dropWhile]
      simp only [h, Bool.not_false]
      rw [alnumRuns]
      simp [h]

/-- Collapsing distributes over an all-alphanumeric lead word. -/
theorem collapseAuxWord (w rest : List Char)
    (hw : ∀ c ∈ w, isAlnum c = true) :
    collapseAux false (w ++ rest) = w ++ collapseAux false rest := by
  induction w with
  | nil => rfl
  | cons c cs ih =>
    have hc := hw c (by simp)
    simp only [List.cons_append, collapseAux, hc, if_true, List.append_eq]
    rw [ih (fun d hd => hw d (by simp [hd]))]

/-- An all-alphanumeric nonempty list is unchanged by the trailing trim. -/
theorem trimTrailAlnum (w : List Char)
    (hw : ∀ c ∈ w, isAlnum c = true) : trimTrailHyphen w = w := by
  unfold trimTrailHyphen
  cases hl : lastChar w with
  | none => rfl
  | some d =>
    have hd := hw d (lastCharMem w d hl)
    have : (d == '-') = false := by
      cases hdd : d == '-'
      · rfl
      · rw [eq_of_beq hdd] at hd
        simp [isAlnum] at hd
    simp [this]

/-- Trailing trim passes over a left part when the right part is
nonempty. -/
theorem trimTrailAppend (l1 l2 : List Char) (h : l2 ≠ []) :
    trimTrailHyphen (l1 ++ l2) = l1 ++ trimTrailHyphen l2 := by
  unfold trimTrailHyphen
  rw [lastCharAppend l1 l2 h]
  cases hl : lastChar l2 with
  | none => rfl
  | some d =>
    by_cases hd : d == '-'
    · simp [hd, dropLastLAppend l1 l2 h]
    · simp [hd]

/-- Joining a nonempty tail adds a separating hyphen after the head
run. -/
theorem intercalateConsNe (w : List Char) (t : List (List Char))
    (h : t ≠ []) :
    List.intercalate ['-'] (w :: t) = w ++ '-' :: List.intercalate ['-'] t := by
  cases t with
  | nil => exact absurd rfl h
  | cons b bs =>
    simp [List.intercalate, List.intersperse]

/-- Core of the slug characterization: on a list that is empty or starts
alphanumerically, collapsing runs and trimming the trailing hyphen equals
joining the maximal alphanumeric runs with single hyphens. -/
theorem collapseRunsMain : ∀ (n : Nat) (m : List Char), m.length ≤ n →
    (m = [] ∨ ∃ c cs, m = c :: cs ∧ isAlnum c = true) →
    trimTrailHyphen (collapseAux false m) =
      List.intercalate ['-'] (alnumRuns m) := by
  intro n
  induction n with
  | zero =>
    intro m hm hh
    have hme : m = [] := by
      cases m with
      | nil => rfl
      | cons c cs => simp at hm
    subst hme
    simp [alnumRuns, collapseAux, trimTrailHyphen, lastChar,
      List.intercalate, List.intersperse]
  | succ n ih =>
    intro m hm hh
    rcases hh with rfl | ⟨c, cs, rfl, hc⟩
    · simp [alnumRuns, collapseAux, trimTrailHyphen, lastChar,
        List.intercalate, List.intersperse]
    · have hsplit : c :: cs = (c :: cs.takeWhile isAlnum) ++ cs.dropWhile isAlnum := by
        rw [List.cons_append]
        rw [List.takeWhile_append_dropWhile]
      have hwAll : ∀ d ∈ c :: cs.takeWhile isAlnum, isAlnum d = true := by
        intro d hd
        rcases List.mem_cons.mp hd with rfl | hd2
        · exact hc
        · exact takeWhileAll isAlnum cs d hd2
      have hcol : collapseAux false (c :: cs) =
          (c :: cs.takeWhile isAlnum) ++ collapseAux false (cs.dropWhile isAlnum) := by
        rw [hsplit] at *
        exact collapseAuxWord _ _ hwAll
      have hruns : alnumRuns (c :: cs) =
          (c :: cs.takeWhile isAlnum) :: alnumRuns (cs.dropWhile isAlnum) := by
        rw [alnumRuns]
        simp [hc]
      rcases dropWhileHead isAlnum cs with hr | ⟨d, ds, hr, hd⟩
      · rw [hcol, hruns, hr]
        simp only [collapseAux, List.append_nil, alnumRuns]
        rw [trimTrailAlnum _ hwAll]
        simp [List.intercalate, List.intersperse]
      · have hcolr : collapseAux false (cs.dropWhile isAlnum) =
            '-' :: collapseAux false (ds.dropWhile (fun x => !isAlnum x)) := by
          rw [hr]
          simp only [collapseAux, hd]
          simp [collapseAuxTrue]
        have hrunsr : alnumRuns (cs.dropWhile isAlnum) =
            alnumRuns (ds.dropWhile (fun x => !isAlnum x)) := by
          rw [hr, alnumRuns]
          simp [hd]
        have hlen : (ds.dropWhile (fun x => !isAlnum x)).length ≤ n := by
          have h1 := dropWhileLenLe (fun x => !isAlnum x) ds
          have h2 := dropWhileLenLe isAlnum cs
          rw [hr] at h2
          simp only [List.length_cons] at h2 hm
          omega
        have hhead : ds.dropWhile (fun x => !isAlnum x) = [] ∨
            ∃ e es, ds.dropWhile (fun x => !isAlnum x) = e :: es ∧ isAlnum e = true := by
          rcases dropWhileHead (fun x => !isAlnum x) ds with h1 | ⟨e, es, h1, h2⟩
          · left; exact h1
          · right
            refine ⟨e, es, h1, ?_⟩
            simpa using h2
        have hih := ih (ds.dropWhile (fun x => !isAlnum x)) hlen hhead
        rcases hhead with hm2 | ⟨e, es, hm2, he⟩
        · rw [hcol, hcolr, hm2]
          simp only [collapseAux]
          rw [hruns, hrunsr, hm2]
          have htt : trimTrailHyphen ((c :: cs.takeWhile isAlnum) ++ ['-']) =
              c :: cs.takeWhile isAlnum := by
            rw [trimTrailAppend _ _ (by simp)]
            simp [trimTrailHyphen, lastChar, dropLastL]
          rw [htt]
          simp [alnumRuns, List.intercalate, List.intersperse]
        · have hcne : collapseAux false (ds.dropWhile (fun x => !isAlnum x)) ≠ [] := by
            rw [hm2]
            simp [collapseAux, he]
          rw [hcol, hcolr, hruns, hrunsr]
          have hassoc : (c :: cs.takeWhile isAlnum) ++
              '-' :: collapseAux false (ds.dropWhile (fun x => !isAlnum x)) =
              ((c :: cs.takeWhile isAlnum) ++ ['-']) ++
                collapseAux false (ds.dropWhile (fun x => !isAlnum x)) := by
            simp
          rw [hassoc, trimTrailAppend _ _ hcne, hih]
          have hrne : alnumRuns (ds.dropWhile (fun x => !isAlnum x)) ≠ [] := by
            rw [hm2, alnumRuns]
            simp [he]
          rw [intercalateConsNe _ _ hrne]
          simp

/-- The slug computed by the code equals the slug as characterized by the
specification. -/
theorem slugifyEqSpecSlug (s : String) : slugify s = specSlug s := by
  unfold slugify specSlug collapseNonAlnum
  congr 1
  rw [trimLeadCollapse]
  rw [← alnumRunsDropLead (s.data.map jsToLower)]
  apply collapseRunsMain
      ((s.data.map jsToLower).dropWhile (fun d => !isAlnum d)).length _ le_rfl
  rcases dropWhileHead (fun d => !isAlnum d) (s.data.map jsToLower) with
      h | ⟨c, cs, h, hc⟩
  · left; exact h
  · right
    exact ⟨c, cs, h, by simpa using hc⟩

/-- Dropping a leading non-whitespace character keeps the trailing
whitespace marker. -/
theorem wsTrailConsNe (c : Char) (cs : List Char) (h : isWs c = false) :
    wsTrail (c :: cs) = wsTrail cs := by
  cases cs with
  | nil => simp [wsTrail, lastChar, h]
  | cons b bs =>
    unfold wsTrail
    rw [lastCharCons c (b :: bs) (by simp)]

/-- Trailing whitespace marker of a cons in terms of the tail. -/
theorem wsTrailCons (c : Char) (cs : List Char) :
    wsTrail (c :: cs) =
      if cs.isEmpty then (if isWs c then 1 else 0) else wsTrail cs := by
  cases cs with
  | nil => simp [wsTrail, lastChar]
  | cons b bs =>
    unfold wsTrail
    rw [lastCharCons c (b :: bs) (by simp)]
    simp

/-- Field counting for the whitespace split scanner, in both scanner
states, against the token count. -/
theorem wsSplitCount : ∀ l : List Char,
    (∀ acc : List Char,
      (wsSplitAux false acc l).length = tokenCountAux true l + 1 + wsTrail l)
    ∧ (wsSplitAux true [] l).length =
        tokenCountAux false l + (if l.isEmpty then 1 else wsTrail l) := by
  intro l
  induction l with
  | nil =>
    constructor
    · intro acc
      simp [wsSplitAux, tokenCountAux, wsTrail, lastChar]
    · simp [wsSplitAux, tokenCountAux]
  | cons c cs ih =>
    obtain ⟨ih0, ih1⟩ := ih
    by_cases hw : isWs c
    · constructor
      · intro acc
        have e1 : wsSplitAux false acc (c :: cs) =
            acc.reverse :: wsSplitAux true [] cs := by
          simp [wsSplitAux, hw]
        have e2 : tokenCountAux true (c :: cs) = tokenCountAux false cs := by
          simp [tokenCountAux, hw]
        rw [e1, List.length_cons, ih1, e2, wsTrailCons]
        simp only [hw, if_true]
        cases cs <;> simp <;> omega
      · have e1 : wsSplitAux true [] (c :: cs) = wsSplitAux true [] cs := by
          simp [wsSplitAux, hw]
        have e2 : tokenCountAux false (c :: cs) = tokenCountAux false cs := by
          simp [tokenCountAux, hw]
        rw [e1, ih1, e2, wsTrailCons]
        simp only [hw, if_true]
        cases cs <;> simp
    · have hw2 : isWs c = false := by simpa using hw
      constructor
      · intro acc
        have e1 : wsSplitAux false acc (c :: cs) =
            wsSplitAux false (c :: acc) cs := by
          simp [wsSplitAux, hw2]
        have e2 : tokenCountAux true (c :: cs) = tokenCountAux true cs := by
          simp [tokenCountAux, hw2]
        rw [e1, ih0 (c :: acc), e2, wsTrailConsNe c cs hw2]
      · have e1 : wsSplitAux true [] (c :: cs) = wsSplitAux false [c] cs := by
          simp [wsSplitAux, hw2]
        have e2 : tokenCountAux false (c :: cs) = 1 + tokenCountAux true cs := by
          simp [tokenCountAux, hw2]
        rw [e1, ih0 [c], e2, wsTrailConsNe c cs hw2]
        simp only [List.isEmpty_cons, Bool.false_eq_true, if_false]
        omega

/-- The JS split field count on a nonempty list is the token count plus
one for leading and one for trailing whitespace. -/
theorem wsSplitLength (l : List Char) (h : l ≠ []) :
    (wsSplit l).length = tokenCount l + wsLead l + wsTrail l := by
  cases l with
  | nil => exact absurd rfl h
  | cons c cs =>
    unfold wsSplit tokenCount
    by_cases hw : isWs c
    · have e1 : wsSplitAux false [] (c :: cs) =
          [].reverse :: wsSplitAux true [] cs := by
        simp [wsSplitAux, hw]
      have e2 : tokenCountAux false (c :: cs) = tokenCountAux false cs := by
        simp [tokenCountAux, hw]
      rw [e1, List.length_cons, (wsSplitCount cs).2, e2, wsTrailCons]
      simp only [hw, if_true, wsLead]
      cases cs <;> simp <;> omega
    · have hw2 : isWs c = false := by simpa using hw
      have e1 : wsSplitAux false [] (c :: cs) = wsSplitAux false [c] cs := by
        simp [wsSplitAux, hw2]
      have e2 : tokenCountAux false (c :: cs) = 1 + tokenCountAux true cs := by
        simp [tokenCountAux, hw2]
      rw [e1, (wsSplitCount cs).1 [c], e2, wsTrailConsNe c cs hw2]
      simp only [wsLead, hw2, Bool.false_eq_true, if_false]
      omega

/-- Reading time in terms of the token count of a nonempty content. -/
theorem readingTimeTokens (c : String) (h : c.data ≠ []) :
    readingTimeOf c =
      max 1 (jsCeilDiv (tokenCount c.data + wsLead c.data + wsTrail c.data) 200) := by
  unfold readingTimeOf
  rw [wsSplitLength c.data h]

/-- Membership in an insertion step. -/
theorem memInsertByPub (p q : PostRow) (l : List PostRow) :
    q ∈ insertByPub p l ↔ q = p ∨ q ∈ l := by
  induction l with
  | nil => simp [insertByPub]
  | cons r rs ih =>
    unfold insertByPub
    by_cases h : pubDescLe p.published_at r.published_at
    · simp [h]
    · simp [h, ih]
      tauto

/-- The insertion sort of the post list keeps exactly its members. -/
theorem memSortByPubDesc (q : PostRow) (l : List PostRow) :
    q ∈ sortByPubDesc l ↔ q ∈ l := by
  induction l with
  | nil => simp [sortByPubDesc]
  | cons r rs ih =>
    unfold sortByPubDesc
    rw [memInsertByPub, ih]
    simp

set_option maxRecDepth 100000 in
example : tokenCount longContent.data = 200 ∧ (wsSplit longContent.data).length = 201 ∧ handledReadingTime (createPost 0 createBodyLong dbEmpty).1 = some 2 := by decide

/-- C4: for every payload accepted by the create handler, the slug of the
returned post is the title lowercased with each maximal run of
non-alphanumeric characters replaced by a single hyphen and no leading or
trailing hyphen. -/
theorem createPostSlugMatchesSpec (now : Nat) (body : CreatePostBody)
    (db : Db) (t : String) (ht : body.title = some t)
    (hv : (isTruthyS body.title && isTruthyS body.content &&
      isTruthyN body.category_id) = true) :
    ∃ p, (createPost now body db).1 = .ok 201 p ∧ p.slug = specSlug t := by
  unfold createPost
  simp only [hv, Bool.not_true, Bool.false_eq_true, if_false]
  refine ⟨_, rfl, ?_⟩
  show slugify (body.title.getD "") = specSlug t
  rw [ht]
  exact slugifyEqSpecSlug t

/-- C4 witness at a concrete payload. -/
theorem createPostSlugMatchesSpecWitness :
    ∃ p, (createPost 0 createBodyBasic dbEmpty).1 = .ok 201 p ∧
      p.slug = specSlug "My First Post" :=
  createPostSlugMatchesSpec 0 createBodyBasic dbEmpty "My First Post" rfl
    (by decide)

/-- C3: an update body carrying status published sets `published_at` when
it was null, keeps it when it was set, and a second publishing update
never changes it. -/
theorem publishSetsPublishedAtOnce (now now2 : Nat)
    (body body2 : UpdatePostBody) (row : PostRow)
    (h : body.status = some "published")
    (h2 : body2.status = some "published") :
    (row.published_at = none →
        (applyUpdate now body row).published_at = some now)
    ∧ (∀ t, row.published_at = some t →
        (applyUpdate now body row).published_at = some t)
    ∧ (applyUpdate now2 body2 (applyUpdate now body row)).published_at =
        (applyUpdate now body row).published_at := by
  refine ⟨?_, ?_, ?_⟩
  · intro hnone
    simp [applyUpdate, h, hnone]
  · intro t ht
    simp [applyUpdate, h, ht]
  · cases hrow : row.published_at <;> simp [applyUpdate, h, h2, hrow]

/-- C3 witness: publishing a draft stamps the time, republishing keeps
it. -/
theorem publishSetsPublishedAtOnceWitness :
    (sampleDraft.published_at = none →
        (applyUpdate 7 updBodyPublish sampleDraft).published_at = some 7)
    ∧ (∀ t, sampleDraft.published_at = some t →
        (applyUpdate 7 updBodyPublish sampleDraft).published_at = some t)
    ∧ (applyUpdate 8 updBodyPublish
          (applyUpdate 7 updBodyPublish sampleDraft)).published_at =
        (applyUpdate 7 updBodyPublish sampleDraft).published_at :=
  publishSetsPublishedAtOnce 7 8 updBodyPublish updBodyPublish sampleDraft
    rfl rfl

set_option maxRecDepth 100000 in
/-- C5 counterexample: content consisting of one leading space and 200
one-letter words has 200 whitespace-separated tokens, so the claim
prescribes reading time max(1, ceil(200 / 200)) = 1, but the stored value
is 2 because the JS split also counts the empty leading field. -/
theorem readingTimeClaimCounterexample :
    handledReadingTime (createPost 0 createBodyLong dbEmpty).1 = some 2
    ∧ tokenCount longContent.data = 200
    ∧ max 1 (jsCeilDiv (tokenCount longContent.data) 200) = 1 := by
  decide

/-- C5 amended: on create and on content update the stored reading time
is max(1, ceil(n / 200)) where n is the whitespace-separated token count
of the content plus one for leading whitespace and one for trailing
whitespace. -/
theorem readingTimeAmended (now : Nat) (body : CreatePostBody)
    (ub : UpdatePostBody) (row : PostRow) (db : Db) (c : String)
    (h1 : body.content = some c)
    (hv : (isTruthyS body.title && isTruthyS body.content &&
      isTruthyN body.category_id) = true)
    (h2 : ub.content = some c) (hne : c.data ≠ []) :
    (∃ p, (createPost now body db).1 = .ok 201 p ∧
      p.reading_time_minutes =
        max 1 (jsCeilDiv (tokenCount c.data + wsLead c.data + wsTrail c.data) 200))
    ∧ (applyUpdate now ub row).reading_time_minutes =
        max 1 (jsCeilDiv (tokenCount c.data + wsLead c.data + wsTrail c.data) 200) := by
  constructor
  · unfold createPost
    simp only [hv, Bool.not_true, Bool.false_eq_true, if_false]
    refine ⟨_, rfl, ?_⟩
    show readingTimeOf (body.content.getD "") = _
    rw [h1, Option.getD_some]
    exact readingTimeTokens c hne
  · show (match ub.content with
      | some cc => readingTimeOf cc
      | none => row.reading_time_minutes) = _
    rw [h2]
    exact readingTimeTokens c hne

/-- C5 amended witness at a concrete create and update. -/
theorem readingTimeAmendedWitness :
    (∃ p, (createPost 0 createBodyBasic dbEmpty).1 = .ok 201 p ∧
      p.reading_time_minutes =
        max 1 (jsCeilDiv (tokenCount "short words here".data +
          wsLead "short words here".data + wsTrail "short words here".data) 200))
    ∧ (applyUpdate 0 updBodyContentBasic samplePost).reading_time_minutes =
        max 1 (jsCeilDiv (tokenCount "short words here".data +
          wsLead "short words here".data + wsTrail "short words here".data) 200) :=
  readingTimeAmended 0 createBodyBasic updBodyContentBasic samplePost dbEmpty
    "short words here" rfl (by decide) rfl (by decide)

/-- C8: the update statement touches exactly the supplied columns plus
the always-stamped `updated_at`, the reading time recomputation bound to
a supplied content, and the conditional first-publish `published_at`;
slug, view count, author and creation time are never modified. -/
theorem updateTouchesOnlySuppliedColumns (now id : Nat)
    (body : UpdatePostBody) (db : Db) (row : PostRow)
    (hf : hasAnyField body = true)
    (hfind : db.posts.find? (fun p => p.id == id) = some row) :
    (updatePost now id body db).1 = .ok 200 (applyUpdate now body row)
    ∧ (applyUpdate now body row).slug = row.slug
    ∧ (applyUpdate now body row).view_count = row.view_count
    ∧ (applyUpdate now body row).author_id = row.author_id
    ∧ (applyUpdate now body row).created_at = row.created_at
    ∧ (applyUpdate now body row).id = row.id
    ∧ (applyUpdate now body row).updated_at = now
    ∧ (body.title = none → (applyUpdate now body row).title = row.title)
    ∧ (body.content = none →
        (applyUpdate now body row).content = row.content
        ∧ (applyUpdate now body row).reading_time_minutes =
            row.reading_time_minutes)
    ∧ (∀ c, body.content = some c →
        (applyUpdate now body row).reading_time_minutes = readingTimeOf c)
    ∧ (body.excerpt = none →
        (applyUpdate now body row).excerpt = row.excerpt)
    ∧ (body.category_id = none →
        (applyUpdate now body row).category_id = row.category_id)
    ∧ (body.featured = none →
        (applyUpdate now body row).featured = row.featured)
    ∧ (body.status = none →
        (applyUpdate now body row).status = row.status
        ∧ (applyUpdate now body row).published_at = row.published_at)
    ∧ (∀ s, body.status = some s → s ≠ "published" →
        (applyUpdate now body row).published_at = row.published_at)
    ∧ (∀ t, row.published_at = some t →
        (applyUpdate now body row).published_at = some t) := by
  refine ⟨?_, ?_, ?_, ?_, ?_, ?_, ?_, ?_, ?_, ?_, ?_, ?_, ?_, ?_, ?_, ?_⟩
  · simp [updatePost, hf, hfind]
  · simp [applyUpdate]
  · simp [applyUpdate]
  · simp [applyUpdate]
  · simp [applyUpdate]
  · simp [applyUpdate]
  · simp [applyUpdate]
  · intro hb
    simp [applyUpdate, hb]
  · intro hb
    constructor <;> simp [applyUpdate, hb]
  · intro c hb
    simp [applyUpdate, hb]
  · intro hb
    simp [applyUpdate, hb]
  · intro hb
    simp [applyUpdate, hb]
  · intro hb
    simp [applyUpdate, hb]
  · intro hb
    constructor <;> simp [applyUpdate, hb]
  · intro s hb hs
    simp [applyUpdate, hb, hs]
  · intro t ht
    cases hb : body.status with
    | none => simp [applyUpdate, hb, ht]
    | some s =>
      simp only [applyUpdate, hb]
      split <;> simp [ht]

/-- C8 witness: a concrete publishing update against the draft row. -/
theorem updateTouchesOnlySuppliedColumnsWitness :
    (updatePost 11 2 updBodyPublish dbOneDraft).1 =
      .ok 200 (applyUpdate 11 updBodyPublish sampleDraft)
    ∧ (applyUpdate 11 updBodyPublish sampleDraft).slug = sampleDraft.slug
    ∧ (applyUpdate 11 updBodyPublish sampleDraft).view_count =
        sampleDraft.view_count
    ∧ (applyUpdate 11 updBodyPublish sampleDraft).author_id =
        sampleDraft.author_id
    ∧ (applyUpdate 11 updBodyPublish sampleDraft).created_at =
        sampleDraft.created_at
    ∧ (applyUpdate 11 updBodyPublish sampleDraft).id = sampleDraft.id
    ∧ (applyUpdate 11 updBodyPublish sampleDraft).updated_at = 11
    ∧ (updBodyPublish.title = none →
        (applyUpdate 11 updBodyPublish sampleDraft).title = sampleDraft.title)
    ∧ (updBodyPublish.content = none →
        (applyUpdate 11 updBodyPublish sampleDraft).content = sampleDraft.content
        ∧ (applyUpdate 11 updBodyPublish sampleDraft).reading_time_minutes =
            sampleDraft.reading_time_minutes)
    ∧ (∀ c, updBodyPublish.content = some c →
        (applyUpdate 11 updBodyPublish sampleDraft).reading_time_minutes =
          readingTimeOf c)
    ∧ (updBodyPublish.excerpt = none →
        (applyUpdate 11 updBodyPublish sampleDraft).excerpt = sampleDraft.excerpt)
    ∧ (updBodyPublish.category_id = none →
        (applyUpdate 11 updBodyPublish sampleDraft).category_id =
          sampleDraft.category_id)
    ∧ (updBodyPublish.featured = none →
        (applyUpdate 11 updBodyPublish sampleDraft).featured =
          sampleDraft.featured)
    ∧ (updBodyPublish.status = none →
        (applyUpdate 11 updBodyPublish sampleDraft).status = sampleDraft.status
        ∧ (applyUpdate 11 updBodyPublish sampleDraft).published_at =
            sampleDraft.published_at)
    ∧ (∀ s, updBodyPublish.status = some s → s ≠ "published" →
        (applyUpdate 11 updBodyPublish sampleDraft).published_at =
          sampleDraft.published_at)
    ∧ (∀ t, sampleDraft.published_at = some t →
        (applyUpdate 11 updBodyPublish sampleDraft).published_at = some t) :=
  updateTouchesOnlySuppliedColumns 11 2 updBodyPublish dbOneDraft sampleDraft
    (by decide) (by decide)

/-- C6: every accepted comment-creation payload yields a comment whose
status is pending, whatever status the payload itself carried. -/
theorem commentAlwaysPending (now postId : Nat) (body : CreateCommentBody)
    (db : Db) (hname : isTruthyS body.author_name = true)
    (hcontent : isTruthyS body.content = true)
    (hpost : db.posts.any (fun p => p.id == postId) = true) :
    ∃ r, (createComment now postId body db).1 = .ok 201 r ∧
      r.status = "pending" := by
  unfold createComment
  simp [hname, hcontent, hpost, commentsStatusDefault]

/-- C6 witness: the payload even asks for status approved and still gets
pending. -/
theorem commentAlwaysPendingWitness :
    commentBodyFull.status = some "approved" ∧
    ∃ r, (createComment 5 1 commentBodyFull dbOnePublished).1 = .ok 201 r ∧
      r.status = "pending" :=
  ⟨rfl, commentAlwaysPending 5 1 commentBodyFull dbOnePublished rfl rfl
    (by decide)⟩

/-- C7 counterexample: a request whose body fails validation and whose
post id does not exist is answered 400, not 404 as the claim states for
every such request. -/
theorem commentMissingPostCounterexample :
    dbEmpty.posts.any (fun p => p.id == 5) = false
    ∧ (createComment 0 5 commentBodyNoName dbEmpty).1 =
        .err 400 "author_name and content are required"
    ∧ handledStatus (createComment 0 5 commentBodyNoName dbEmpty).1 ≠ 404 := by
  decide

/-- C7 amended: for requests passing field validation, a nonexistent post
id is answered 404 with the message Post not found and the database is
left unchanged. -/
theorem commentMissingPost404 (now postId : Nat) (body : CreateCommentBody)
    (db : Db) (hname : isTruthyS body.author_name = true)
    (hcontent : isTruthyS body.content = true)
    (hpost : db.posts.any (fun p => p.id == postId) = false) :
    (createComment now postId body db).1 = .err 404 "Post not found"
    ∧ (createComment now postId body db).2 = db := by
  unfold createComment
  simp [hname, hcontent, hpost]

/-- C7 amended witness at a concrete valid body and empty database. -/
theorem commentMissingPost404Witness :
    (createComment 0 9 commentBodyFull dbEmpty).1 = .err 404 "Post not found"
    ∧ (createComment 0 9 commentBodyFull dbEmpty).2 = dbEmpty :=
  commentMissingPost404 0 9 commentBodyFull dbEmpty rfl rfl (by decide)

/-- C9: the stats endpoint answers 200 with the assembled object exactly
when all five queries succeed; any failure yields the generic 500 and no
partial data. -/
theorem adminStatsAllOrNothing {ε : Type} (q1 : Except ε PostCountsRow)
    (q2 : Except ε CommentCountsRow) (q3 : Except ε Nat)
    (q4 : Except ε (List RecentPostRow))
    (q5 : Except ε (List RecentCommentRow)) :
    ((queryOk q1 && queryOk q2 && queryOk q3 && queryOk q4 && queryOk q5) = true →
      ∃ body, getAdminStats q1 q2 q3 q4 q5 = .ok 200 body)
    ∧ ((queryOk q1 && queryOk q2 && queryOk q3 && queryOk q4 && queryOk q5) = false →
      getAdminStats q1 q2 q3 q4 q5 = .err 500 "Failed to fetch admin stats") := by
  cases q1 <;> cases q2 <;> cases q3 <;> cases q4 <;> cases q5 <;>
    simp [getAdminStats, promiseAll5, queryOk, Bind.bind, Except.bind,
      Pure.pure, Except.pure]

/-- C9 witness: a fully successful run and a run with one failing query. -/
theorem adminStatsAllOrNothingWitness :
    (∃ body, getAdminStats (Except.ok ⟨2, 1, 1⟩ : Except String PostCountsRow)
        (.ok ⟨3, 1, 1, 1⟩) (.ok 7) (.ok []) (.ok []) = .ok 200 body)
    ∧ getAdminStats (Except.error "down" : Except String PostCountsRow)
        (.ok ⟨3, 1, 1, 1⟩) (.ok 7) (.ok []) (.ok []) =
      .err 500 "Failed to fetch admin stats" :=
  ⟨(adminStatsAllOrNothing (Except.ok ⟨2, 1, 1⟩ : Except String PostCountsRow)
      (.ok ⟨3, 1, 1, 1⟩) (.ok 7) (.ok []) (.ok [])).1 (by decide),
   (adminStatsAllOrNothing (Except.error "down" : Except String PostCountsRow)
      (.ok ⟨3, 1, 1, 1⟩) (.ok 7) (.ok []) (.ok [])).2 (by decide)⟩

/-- C10: a valid comment payload is accepted whenever a post with the id
exists, whatever its status; a draft post never appears in the public
list, yet receives the comment. -/
theorem commentOnAnyStatusPost (now postId : Nat)
    (body : CreateCommentBody) (db : Db) (p : PostRow)
    (hmem : p ∈ db.posts) (hid : p.id = postId)
    (hname : isTruthyS body.author_name = true)
    (hcontent : isTruthyS body.content = true) :
    (∃ r, (createComment now postId body db).1 = .ok 201 r)
    ∧ (createComment now postId body db).2.comments.length =
        db.comments.length + 1
    ∧ (p.status = "draft" →
        ∀ params rows, listPosts params db = .ok 200 rows → p ∉ rows) := by
  have hpost : db.posts.any (fun q => q.id == postId) = true := by
    rw [List.any_eq_true]
    exact ⟨p, hmem, by simp [hid]⟩
  refine ⟨?_, ?_, ?_⟩
  · unfold createComment
    simp [hname, hcontent, hpost]
  · unfold createComment
    simp [hname, hcontent, hpost]
  · intro hdraft params rows hrows
    unfold listPosts at hrows
    have hrows2 : rows =
        sortByPubDesc (db.posts.filter (fun q => q.status == "published")) := by
      cases hrows
      rfl
    subst hrows2
    rw [memSortByPubDesc]
    intro hmem2
    have hstat := (List.mem_filter.mp hmem2).2
    rw [hdraft] at hstat
    simp at hstat

/-- C10 witness: a comment lands on the draft post, which the public list
does not show. -/
theorem commentOnAnyStatusPostWitness :
    (∃ r, (createComment 3 2 commentBodyFull dbOneDraft).1 = .ok 201 r)
    ∧ (createComment 3 2 commentBodyFull dbOneDraft).2.comments.length =
        dbOneDraft.comments.length + 1
    ∧ (sampleDraft.status = "draft" →
        ∀ params rows, listPosts params dbOneDraft = .ok 200 rows →
          sampleDraft ∉ rows) :=
  commentOnAnyStatusPost 3 2 commentBodyFull dbOneDraft sampleDraft
    (by decide) (by decide) rfl rfl

/-- C1 counterexample: with a search parameter matching neither the title
nor the excerpt of the only published post, the handler still returns
that post, so the claimed case-insensitive substring filter is not
applied. -/
theorem listPostsSearchCounterexample :
    listPosts ⟨some "zzz", none, none⟩ dbOnePublished = .ok 200 [samplePost]
    ∧ ciContains samplePost.title "zzz" = false
    ∧ samplePost.excerpt = some "greetings"
    ∧ ciContains "greetings" "zzz" = false := by
  decide

/-- C1 amended: the list handler ignores the query parameters entirely
and always returns the published posts sorted by publication date
descending. -/
theorem listPostsIgnoresParams (params params2 : ListQueryParams) (db : Db) :
    listPosts params db = listPosts params2 db
    ∧ listPosts params db =
        .ok 200 (sortByPubDesc
          (db.posts.filter (fun p => p.status == "published"))) :=
  ⟨rfl, rfl⟩

/-- C2: in Enforcing mode the Auth Gate answers 401 to a request without
an Authorization header, but the posts-creation route pipeline never
consults the gate: the same header-less request reaches the handler,
which answers 201 and inserts the post row. -/
theorem postPostsBypassesAuthGate :
    requireAuth (.enforcing fun _ => none) none =
      .rejected 401 "Authorization header is required"
    ∧ handledStatus
        (postPostsRoute (.enforcing fun _ => none) none 0 createBodyBasic
          dbEmpty).1 = 201
    ∧ (postPostsRoute (.enforcing fun _ => none) none 0 createBodyBasic
        dbEmpty).2.posts.length = dbEmpty.posts.length + 1 := by
  refine ⟨rfl, ?_, ?_⟩ <;> decide
